import Mathlib

/-
Verification development for the django-compilefixtures repository.

The repository has two source files:
  compilefixtures/fixturecompilers.py          (BaseFixtureCompiler)
  compilefixtures/management/commands/compilefixtures.py   (Command)

The definitions below are a shallow embedding of that code.  Python strings
are Lean Strings; Python modules are identified by their dotted-path string;
the Python environment (what imports succeed, which attributes a module has,
settings.INSTALLED_APPS) is a record of oracles, PyEnv.  Python exceptions
are modelled by the Except monad with error type PyErr.  Recursions are
structural (fuel on the explicit character count where the source loops on a
shrinking-but-not-structural list) so every definition reduces in the kernel.
-/

deriving instance DecidableEq for Except

namespace CompileFixtures

/-- Python str.split on a period, character-list level.  The result is always
nonempty; splitting the empty string yields one empty segment, exactly as in
Python. -/
def splitDotsChars : List Char → List (List Char)
  | [] => [[]]
  | c :: rest =>
    let r := splitDotsChars rest
    if c = '.' then [] :: r
    else (c :: r.headD []) :: r.tail

/-- Python dotted_path.split of a period character, as used in
Command._get_compiler_module (line 63) and BaseFixtureCompiler.get_fixture_dir
(line 33). -/
def splitDots (s : String) : List String :=
  (splitDotsChars s.data).map (fun l => String.mk l)

def joinDotsAux : List String → String
  | [] => ""
  | x :: xs => "." ++ x ++ joinDotsAux xs

/-- Python period.join(segments): the inverse of splitDots. -/
def joinDots : List String → String
  | [] => ""
  | x :: xs => x ++ joinDotsAux xs

def joinSlashAux : List String → String
  | [] => ""
  | x :: xs => "/" ++ x ++ joinSlashAux xs

/-- os.path.join on relative path components: join with slashes. -/
def joinSlash : List String → String
  | [] => ""
  | x :: xs => x ++ joinSlashAux xs

/-- A Python class object, as far as this tool inspects one: its dunder name,
its declaring module (dunder module), whether it is the object
BaseFixtureCompiler itself (identity test at line 55 of the command), whether
it is a subclass of BaseFixtureCompiler, and the three class attributes a
fixture compiler may override.  A none override means the attribute is
inherited from BaseFixtureCompiler, whose class-level defaults are
filename = None, format = a json tag, and the dumpdata_excludes list
(fixturecompilers.py lines 7-26). -/
structure PyClass where
  name : String
  mod : String
  isBase : Bool
  subOfBase : Bool
  filename : Option String
  fmt : Option String
  declaredExcludes : Option (List String)
deriving DecidableEq, Repr

/-- A module attribute is either a class object or some other object. -/
inductive PyAttr where
  | pyClass (c : PyClass)
  | other
deriving DecidableEq, Repr

/-- The Python exceptions this code can raise or catch. -/
inductive PyErr where
  | importError (path : String)
  | attributeError (objDesc : String) (attrName : String)
  | typeError (msg : String)
  | valueError (msg : String)
deriving DecidableEq, Repr

/-- The class-level default of BaseFixtureCompiler.dumpdata_excludes
(fixturecompilers.py lines 11-26): non-default-database apps, Django
auth permissions / content types / flatpages / sites, and dynamicsites. -/
def dumpdata_excludes_base : List String :=
  ["aec_remrate", "customer_neea",
   "auth.permission", "contenttypes", "flatpages", "sites",
   "dynamicsites"]

/-- Python attribute lookup of dumpdata_excludes on a compiler instance: the
subclass value if the subclass (re)binds the attribute, else the value
inherited from BaseFixtureCompiler.  A subclass binding shadows the base
list entirely; nothing in the source merges the two. -/
def dumpdataExcludes (c : PyClass) : List String :=
  c.declaredExcludes.getD dumpdata_excludes_base

/-- Python attribute lookup of the format attribute (base default a json tag,
fixturecompilers.py line 9). -/
def effFormat (c : PyClass) : String :=
  c.fmt.getD ("json")

/-- First substitution of get_filename (fixturecompilers.py line 55): the
regular expression sub of pattern any-char, uppercase, one-or-more lowercase,
replaced by group1, underscore, group2 — scanning left to right with
non-overlapping matches, the greedy lowercase run being consumed by a match.
Fuel is the character count; each recursive call strictly shrinks the list,
so fuel equal to the initial length always suffices. -/
def sub1Fuel : Nat → List Char → List Char
  | 0, l => l
  | _ + 1, [] => []
  | _ + 1, [c] => [c]
  | fuel + 1, c1 :: c2 :: rest =>
    if c2.isUpper && (rest.headD ' ').isLower then
      c1 :: '_' :: c2 :: (rest.takeWhile Char.isLower ++ sub1Fuel fuel (rest.dropWhile Char.isLower))
    else
      c1 :: sub1Fuel fuel (c2 :: rest)

def sub1 (l : List Char) : List Char := sub1Fuel l.length l

/-- Second substitution of get_filename (fixturecompilers.py line 56): the
regular expression sub of pattern lowercase-or-digit followed by uppercase,
replaced by group1, underscore, group2, again with non-overlapping
left-to-right matches. -/
def sub2Fuel : Nat → List Char → List Char
  | 0, l => l
  | _ + 1, [] => []
  | _ + 1, [c] => [c]
  | fuel + 1, c1 :: c2 :: rest =>
    if (c1.isLower || c1.isDigit) && c2.isUpper then
      c1 :: '_' :: c2 :: sub2Fuel fuel rest
    else
      c1 :: sub2Fuel fuel (c2 :: rest)

def sub2 (l : List Char) : List Char := sub2Fuel l.length l

/-- Python str.lower on the ASCII class names this code manipulates. -/
def lowerStr (s : String) : String := String.mk (s.data.map Char.toLower)

/-- Third substitution of get_filename (fixturecompilers.py line 59): remove
one trailing occurrence of the seventeen-character suffix underscore-fixture-
underscore-compiler, if present. -/
def stripSuffixFC (s : String) : String :=
  if s.data.length < 17 then s
  else if s.data.drop (s.data.length - 17) = ("_fixture_compiler").data then
    String.mk (s.data.take (s.data.length - 17))
  else s

/-- The name derived from the class name by get_filename when no filename is
declared: CamelCase to snake case via the two substitutions, lowercased, then
stripped of a trailing fixture-compiler suffix. -/
def derivedName (c : PyClass) : String :=
  stripSuffixFC (lowerStr (String.mk (sub2 (sub1 c.name.data))))

/-- BaseFixtureCompiler.get_filename (fixturecompilers.py lines 46-65): the
declared filename if truthy (Python falsiness: None or the empty string fall
through to derivation), else compiled/ plus the derived snake-case name plus
the format extension; an empty derived name raises ValueError. -/
def get_filename (c : PyClass) : Except PyErr String :=
  match c.filename with
  | some f =>
    if f = "" then
      if derivedName c = "" then .error (.valueError c.name)
      else .ok ("compiled/" ++ derivedName c ++ "." ++ effFormat c)
    else .ok f
  | none =>
    if derivedName c = "" then .error (.valueError c.name)
    else .ok ("compiled/" ++ derivedName c ++ "." ++ effFormat c)

/-- The loop of BaseFixtureCompiler.get_fixture_dir (fixturecompilers.py
lines 35-37), recast on the length of the candidate segment list: for i in
range(n) the source tests the dotted join of the first n - i segments, i.e.
candidate lengths n, n-1, ..., 1, and returns the first (longest) candidate
found in settings.INSTALLED_APPS. -/
def fixtureDirGo (apps names : List String) : Nat → Option (List String)
  | 0 => none
  | l + 1 =>
    if joinDots (names.take (l + 1)) ∈ apps then some (names.take (l + 1))
    else fixtureDirGo apps names l

/-- BaseFixtureCompiler.get_fixture_dir (fixturecompilers.py lines 31-40):
split the declaring module path on periods, walk candidate prefixes longest
first until one is an installed app, and return that prefix joined with a
fixtures component; if none matches, raise ValueError (the error payload here
abbreviates the message text, carrying the offending module path). -/
def get_fixture_dir (apps : List String) (c : PyClass) : Except PyErr String :=
  match fixtureDirGo apps (splitDots c.mod) (splitDots c.mod).length with
  | some pre => .ok (joinSlash (pre ++ [("fixtures" : String)]))
  | none => .error (.valueError c.mod)

/-- The Python runtime facts the command consults: which dotted paths can
be imported, the attribute bindings of each module (an association list
from attribute name to object), and settings.INSTALLED_APPS. -/
structure PyEnv where
  importable : String → Bool
  moduleAttrs : String → List (String × PyAttr)
  installed_apps : List String

/-- Python getattr on a module object. -/
def pyGetattr (env : PyEnv) (m : String) (a : String) : Option PyAttr :=
  (env.moduleAttrs m).lookup a

/-- Lexicographic code-point comparison of character lists: the order in
which Python dir() returns attribute names. -/
def charLe : List Char → List Char → Bool
  | [], _ => true
  | _ :: _, [] => false
  | a :: as, b :: bs => if a = b then charLe as bs else decide (a < b)

/-- Lexicographic code-point order on strings (Python string comparison). -/
def StrLe (a b : String) : Prop := charLe a.data b.data = true

instance : DecidableRel StrLe := fun a b => by
  unfold StrLe; infer_instance

/-- Python dir(module): the attribute names of the module in sorted
(alphabetical) order. -/
def dirList (env : PyEnv) (m : String) : List String :=
  List.insertionSort StrLe ((env.moduleAttrs m).map Prod.fst)

/-- The filter of Command._get_fixture_compilers (command lines 55-56):
keep an attribute when it is a class, is not BaseFixtureCompiler itself,
and is a subclass of BaseFixtureCompiler. -/
def keepAttr : PyAttr → Bool
  | PyAttr.pyClass c => (!c.isBase) && c.subOfBase
  | PyAttr.other => false

/-- One step of the dir scan: the attribute bound at the given name, if the
filter keeps it. -/
def compilerAt (env : PyEnv) (m : String) (nm : String) : Option PyAttr :=
  match pyGetattr env m nm with
  | some a => if keepAttr a then some a else none
  | none => none

/-- Command._get_fixture_compilers (command lines 50-58): scan dir(module)
in order and collect every attribute the filter keeps. -/
def getFixtureCompilers (env : PyEnv) (m : String) : List PyAttr :=
  (dirList env m).filterMap (compilerAt env m)

/-- The import loop of Command._get_compiler_module (command lines 66-76),
recast structurally on the list of segments not yet imported.  acc holds the
segments imported so far, modu the module imported so far (None before the
first success, as in the source), last the final segment of the whole path
(names[-1], the getattr target).  The Boolean in the result is true when the
loop exited via break (an explicit compiler was found) and false when the
loop ran to completion, so that the for-else clause of the source can be
modelled by the caller. -/
def importLoop (env : PyEnv) (last : String) : List String → Option String →
    List String → Except PyErr (Option String × Option PyAttr × Bool)
  | _, modu, [] => .ok (modu, none, false)
  | acc, modu, seg :: rest =>
    if env.importable (joinDots (acc ++ [seg])) then
      importLoop env last (acc ++ [seg]) (some (joinDots (acc ++ [seg]))) rest
    else if rest = [] then
      match modu with
      | none => .error (.attributeError ("NoneType") last)
      | some m =>
        match pyGetattr env m last with
        | some a => .ok (some m, some a, true)
        | none => .error (.attributeError m last)
    else
      .error (.importError (joinDots (acc ++ [seg])))

/-- Command._get_compiler_module (command lines 60-93).  Import progressively
longer prefixes; an ImportError on a non-final prefix is re-raised; an
ImportError on the full path makes the final segment a getattr on the
module imported so far (break).  If the loop completes, the for-else clause runs: an
identifier that is an installed app is probed at its conventional
tests.fixturecompilers submodule, whose ImportError is re-raised only for an
explicitly requested identifier and otherwise yields the nothing-to-do pair
(None, None). -/
def getCompilerModule (env : PyEnv) (dotted : String) (explicit_list : Bool) :
    Except PyErr (Option String × Option PyAttr) :=
  match importLoop env ((splitDots dotted).getLastD ("")) [] none (splitDots dotted) with
  | .error e => .error e
  | .ok (modu, ec, true) => .ok (modu, ec)
  | .ok (modu, ec, false) =>
    if dotted ∈ env.installed_apps then
      if env.importable (dotted ++ ".tests.fixturecompilers") then
        .ok (some (dotted ++ ".tests.fixturecompilers"), none)
      else if explicit_list then
        .error (.importError (dotted ++ ".tests.fixturecompilers"))
      else
        .ok (none, none)
    else
      .ok (modu, ec)

/-- The observable actions of one run: test-database provisioning
(DjangoTestSuiteRunner.setup_databases, triggered lazily by
_ensure_db_built), one compiler execution (its populate_database call plus
the dumpdata serialization, carrying the class name, the exclusion list
passed to dumpdata, and the output path), the flush management command, and
a line written to stderr for an identifier whose app label could not be
determined. -/
inductive Event where
  | provision
  | compileEv (cls : String) (excludes : List String) (path : String)
  | flush
  | errLine (dotted : String)
deriving DecidableEq, Repr

/-- The mutable state of one command invocation: whether the test database
has been built, the tally of compilers processed, and the trace of observable
actions in order. -/
structure RunState where
  dbBuilt : Bool
  count : Nat
  trace : List Event
deriving DecidableEq, Repr

def initState : RunState := { dbBuilt := false, count := 0, trace := [] }

/-- Command._ensure_db_built (command lines 36-39): provision the test
database on first use only. -/
def ensureDbBuilt (st : RunState) : RunState :=
  if st.dbBuilt then st
  else { dbBuilt := true, count := st.count, trace := st.trace ++ [Event.provision] }

/-- Command.compile_fixture (command lines 158-176): compute the filename
(which can raise ValueError), then populate the database and dump its state
to base_dir slash filename, passing the dumpdata_excludes of the compiler
attribute to dumpdata.  The whole step is one compile event. -/
def compile_fixture (c : PyClass) (base_dir : String) : Except PyErr Event :=
  match get_filename c with
  | .error e => .error e
  | .ok fn => .ok (Event.compileEv c.name (dumpdataExcludes c) (base_dir ++ "/" ++ fn))

/-- The inner loop of Command.process_apps (command lines 139-154): for each
compiler, lazily build the database, instantiate the compiler (instantiating
a non-class getattr result raises TypeError), compute the fixture directory
(a ValueError from get_fixture_dir propagates, aborting the run), write the
stderr line and break if the directory is falsy (this guard is in the
source at lines 146-150), else compile the fixture, bump the tally and
flush. -/
def runCompilers (env : PyEnv) (dotted : String) : RunState → List PyAttr →
    RunState × Option PyErr
  | st, [] => (st, none)
  | st, a :: rest =>
    let st1 := ensureDbBuilt st
    match a with
    | PyAttr.other => (st1, some (.typeError ("object is not callable")))
    | PyAttr.pyClass c =>
      match get_fixture_dir env.installed_apps c with
      | .error e => (st1, some e)
      | .ok base_dir =>
        if base_dir = "" then
          ({ st1 with trace := st1.trace ++ [Event.errLine dotted] }, none)
        else
          match compile_fixture c base_dir with
          | .error e => (st1, some e)
          | .ok ev =>
            runCompilers env dotted
              { dbBuilt := st1.dbBuilt, count := st1.count + 1,
                trace := st1.trace ++ [ev, Event.flush] } rest

/-- The body of Command.process_apps for one identifier (command lines
122-136): resolve it; a None module means continue; an explicit compiler is
run alone, otherwise the discovered compilers of the module are run (continue
when there are none). -/
def processOne (env : PyEnv) (explicit_list : Bool) (st : RunState) (p : String) :
    RunState × Option PyErr :=
  match getCompilerModule env p explicit_list with
  | .error e => (st, some e)
  | .ok (none, _) => (st, none)
  | .ok (some m, oc) =>
    match oc with
    | some a => runCompilers env p st [a]
    | none =>
      match getFixtureCompilers env m with
      | [] => (st, none)
      | cs => runCompilers env p st cs

/-- Command.process_apps (command lines 120-156): iterate the identifiers;
an uncaught exception while processing one identifier aborts the whole run
(the Option PyErr component is the propagating exception). -/
def processApps (env : PyEnv) (explicit_list : Bool) : List String → RunState →
    RunState × Option PyErr
  | [], st => (st, none)
  | p :: ps, st =>
    match processOne env explicit_list st p with
    | (st1, none) => processApps env explicit_list ps st1
    | (st1, some e) => (st1, some e)

/-- A trace is flush-separated when every compile event is immediately
followed by a flush event (in particular no compile event is last). -/
def flushSep (t : List Event) : Prop :=
  ∀ i n ex p, t[i]? = some (Event.compileEv n ex p) → t[i + 1]? = some Event.flush

/- ------------------------------------------------------------------ -/
/- Helper lemmas.                                                      -/
/- ------------------------------------------------------------------ -/

theorem charLe_total : ∀ as bs : List Char, charLe as bs = true ∨ charLe bs as = true
  | [], _ => Or.inl rfl
  | _ :: _, [] => Or.inr rfl
  | a :: as, b :: bs => by
    by_cases hab : a = b
    · subst hab
      simpa [charLe] using charLe_total as bs
    · rcases lt_or_gt_of_ne hab with h | h
      · exact Or.inl (by simp [charLe, hab, h])
      · exact Or.inr (by simp [charLe, Ne.symm hab, h, not_lt_of_gt h])

theorem charLe_trans : ∀ as bs cs : List Char,
    charLe as bs = true → charLe bs cs = true → charLe as cs = true
  | [], _, _ => fun _ _ => rfl
  | a :: as, [], cs => by simp [charLe]
  | a :: as, b :: bs, [] => by simp [charLe]
  | a :: as, b :: bs, c :: cs => by
    by_cases hab : a = b <;> by_cases hbc : b = c
    · subst hab; subst hbc
      simp only [charLe, if_pos rfl]
      exact charLe_trans as bs cs
    · subst hab
      simp only [charLe, if_pos rfl, if_neg hbc]
      exact fun _ h2 => h2
    · subst hbc
      simp only [charLe, if_neg hab, if_pos rfl]
      exact fun h1 _ => h1
    · by_cases hac : a = c
      · subst hac
        simp only [charLe, if_neg hab, if_neg hbc, decide_eq_true_eq]
        intro h1 h2
        exact absurd (lt_trans h1 h2) (lt_irrefl a)
      · simp only [charLe, if_neg hab, if_neg hbc, if_neg hac, decide_eq_true_eq]
        exact fun h1 h2 => lt_trans h1 h2

theorem charLe_antisymm : ∀ as bs : List Char,
    charLe as bs = true → charLe bs as = true → as = bs
  | [], [] => fun _ _ => rfl
  | [], _ :: _ => by simp [charLe]
  | _ :: _, [] => by simp [charLe]
  | a :: as, b :: bs => by
    by_cases hab : a = b
    · subst hab
      intro h1 h2
      simp only [charLe, if_pos rfl] at h1 h2
      exact congrArg (a :: ·) (charLe_antisymm as bs h1 h2)
    · simp only [charLe, if_neg hab, if_neg (Ne.symm hab), decide_eq_true_eq]
      intro h1 h2
      exact absurd (lt_trans h1 h2) (lt_irrefl a)

instance : IsTotal String StrLe := ⟨fun a b => charLe_total a.data b.data⟩

instance : IsTrans String StrLe := ⟨fun a b c => charLe_trans a.data b.data c.data⟩

instance : IsAntisymm String StrLe :=
  ⟨fun a b h1 h2 => String.ext (charLe_antisymm a.data b.data h1 h2)⟩

theorem lookup_some_mem_keys {l : List (String × PyAttr)} {k : String} {v : PyAttr}
    (h : l.lookup k = some v) : k ∈ l.map Prod.fst := by
  rcases List.lookup_eq_some_iff.mp h with ⟨l1, l2, rfl, _⟩
  simp

theorem lookup_eq_of_perm {l1 l2 : List (String × PyAttr)}
    (h : l1.Perm l2) (hnd : (l1.map Prod.fst).Nodup) (a : String) :
    l1.lookup a = l2.lookup a := by
  induction h with
  | nil => rfl
  | cons x h ih =>
    obtain ⟨k, v⟩ := x
    rw [List.lookup_cons, List.lookup_cons]
    cases hx : a == k with
    | true => rfl
    | false =>
      simp only [List.map_cons, List.nodup_cons] at hnd
      exact ih hnd.2
  | swap x y l =>
    obtain ⟨kx, vx⟩ := x
    obtain ⟨ky, vy⟩ := y
    have hne : ky ≠ kx := by
      simp only [List.map_cons, List.nodup_cons, List.mem_cons] at hnd
      exact fun h2 => hnd.1 (Or.inl h2)
    rw [List.lookup_cons, List.lookup_cons, List.lookup_cons, List.lookup_cons]
    cases hy : a == ky with
    | true =>
      have hax : (a == kx) = false := by
        have : a = ky := eq_of_beq hy
        subst this
        exact beq_eq_false_iff_ne.mpr hne
      rw [hax]
    | false =>
      cases hx : a == kx with
      | true => rfl
      | false => rfl
  | trans h1 h2 ih1 ih2 =>
    rw [ih1 hnd, ih2 ((h1.map Prod.fst).nodup_iff.mp hnd)]

theorem splitDotsChars_ne_nil : ∀ l : List Char, splitDotsChars l ≠ []
  | [] => by simp [splitDotsChars]
  | c :: rest => by
    simp only [splitDotsChars]
    by_cases h : c = '.' <;> simp [h]

theorem splitDots_ne_nil (s : String) : splitDots s ≠ [] := by
  unfold splitDots
  simpa using splitDotsChars_ne_nil s.data

theorem importLoop_raise (env : PyEnv) (last : String) :
    ∀ (r1 acc : List String) (modu : Option String) (s : String) (r2 : List String),
    r2 ≠ [] →
    (∀ i, i < r1.length → env.importable (joinDots (acc ++ r1.take (i + 1))) = true) →
    env.importable (joinDots (acc ++ r1 ++ [s])) = false →
    importLoop env last acc modu (r1 ++ s :: r2) =
      .error (.importError (joinDots (acc ++ r1 ++ [s]))) := by
  intro r1
  induction r1 with
  | nil =>
    intro acc modu s r2 hr2 _ hfail
    simp only [List.nil_append]
    simp only [List.append_nil] at hfail
    simp only [importLoop, hfail, Bool.false_eq_true, if_false, if_neg hr2]
    simp
  | cons a r1 ih =>
    intro acc modu s r2 hr2 himp hfail
    have h0 : env.importable (joinDots (acc ++ [a])) = true := by
      have := himp 0 (by simp)
      simpa using this
    simp only [List.cons_append, importLoop, h0, if_true]
    have himp2 : ∀ i, i < r1.length →
        env.importable (joinDots ((acc ++ [a]) ++ r1.take (i + 1))) = true := by
      intro i hi
      have := himp (i + 1) (by simp; omega)
      simpa [List.take_succ_cons, List.append_assoc] using this
    have hfail2 : env.importable (joinDots ((acc ++ [a]) ++ r1 ++ [s])) = false := by
      simpa [List.append_assoc] using hfail
    have := ih (acc ++ [a]) (some (joinDots (acc ++ [a]))) s r2 hr2 himp2 hfail2
    simpa [List.append_assoc] using this

theorem importLoop_advance (env : PyEnv) (last : String) :
    ∀ (r1 acc : List String) (modu : Option String) (rest0 : List String),
    r1 ≠ [] →
    (∀ i, i < r1.length → env.importable (joinDots (acc ++ r1.take (i + 1))) = true) →
    importLoop env last acc modu (r1 ++ rest0) =
      importLoop env last (acc ++ r1) (some (joinDots (acc ++ r1))) rest0 := by
  intro r1
  induction r1 with
  | nil => intro acc modu rest0 h; exact absurd rfl h
  | cons a r1 ih =>
    intro acc modu rest0 _ himp
    have h0 : env.importable (joinDots (acc ++ [a])) = true := by
      have := himp 0 (by simp)
      simpa using this
    simp only [List.cons_append, importLoop, h0, if_true]
    by_cases hr1 : r1 = []
    · subst hr1
      simp
    · have himp2 : ∀ i, i < r1.length →
          env.importable (joinDots ((acc ++ [a]) ++ r1.take (i + 1))) = true := by
        intro i hi
        have := himp (i + 1) (by simp; omega)
        simpa [List.take_succ_cons, List.append_assoc] using this
      have := ih (acc ++ [a]) (some (joinDots (acc ++ [a]))) rest0 hr1 himp2
      simpa [List.append_assoc] using this

theorem importLoop_break_shape (env : PyEnv) (last : String) :
    ∀ (rest acc : List String) (modu : Option String) (mm : Option String)
      (e : Option PyAttr),
    importLoop env last acc modu rest = .ok (mm, e, true) →
    (∃ m2, mm = some m2) ∧ (∃ a2, e = some a2) := by
  intro rest
  induction rest with
  | nil =>
    intro acc modu mm e h
    simp only [importLoop, Except.ok.injEq, Prod.mk.injEq] at h
    exact absurd h.2.2 (by simp)
  | cons seg rest ih =>
    intro acc modu mm e h
    simp only [importLoop] at h
    by_cases himp : env.importable (joinDots (acc ++ [seg])) = true
    · rw [if_pos himp] at h
      exact ih _ _ mm e h
    · rw [if_neg himp] at h
      by_cases hrest : rest = []
      · rw [if_pos hrest] at h
        cases modu with
        | none => simp at h
        | some m =>
          cases hg : pyGetattr env m last with
          | none => simp [hg] at h
          | some a =>
            simp only [hg] at h
            simp only [Except.ok.injEq, Prod.mk.injEq] at h
            exact ⟨⟨m, h.1.symm⟩, ⟨a, h.2.1.symm⟩⟩
      · rw [if_neg hrest] at h
        simp at h

theorem importLoop_complete_shape (env : PyEnv) (last : String) :
    ∀ (rest acc : List String) (modu : Option String) (mm : Option String)
      (e : Option PyAttr),
    rest ≠ [] →
    importLoop env last acc modu rest = .ok (mm, e, false) →
    e = none ∧ ∃ m2, mm = some m2 := by
  intro rest
  induction rest with
  | nil => intro acc modu mm e h; exact absurd rfl h
  | cons seg rest ih =>
    intro acc modu mm e _ h
    simp only [importLoop] at h
    by_cases himp : env.importable (joinDots (acc ++ [seg])) = true
    · rw [if_pos himp] at h
      by_cases hrest : rest = []
      · subst hrest
        simp only [importLoop, Except.ok.injEq, Prod.mk.injEq] at h
        exact ⟨h.2.1.symm, ⟨joinDots (acc ++ [seg]), h.1.symm⟩⟩
      · exact ih _ _ mm e hrest h
    · rw [if_neg himp] at h
      by_cases hrest : rest = []
      · rw [if_pos hrest] at h
        cases modu with
        | none => simp at h
        | some m =>
          cases hg : pyGetattr env m last with
          | none => simp [hg] at h
          | some a =>
            simp only [hg, Except.ok.injEq, Prod.mk.injEq] at h
            exact absurd h.2.2 (by simp)
      · rw [if_neg hrest] at h
        simp at h

theorem fixtureDirGo_found (apps names : List String) (K : Nat) (hK1 : 1 ≤ K)
    (hmem : joinDots (names.take K) ∈ apps) :
    ∀ l, K ≤ l →
    (∀ j, j ≤ l → K < j → joinDots (names.take j) ∉ apps) →
    fixtureDirGo apps names l = some (names.take K) := by
  intro l
  induction l with
  | zero => intro h; omega
  | succ l ih =>
    intro hKl hmax
    by_cases hK : K = l + 1
    · subst hK
      simp only [fixtureDirGo, if_pos hmem]
    · have hlt : K ≤ l := by omega
      have hnot : joinDots (names.take (l + 1)) ∉ apps :=
        hmax (l + 1) (le_refl _) (by omega)
      simp only [fixtureDirGo, if_neg hnot]
      exact ih hlt (fun j hj hKj => hmax j (by omega) hKj)

theorem fixtureDirGo_none (apps names : List String) :
    ∀ l, (∀ j, j ≤ l → 1 ≤ j → joinDots (names.take j) ∉ apps) →
    fixtureDirGo apps names l = none := by
  intro l
  induction l with
  | zero => intro _; rfl
  | succ l ih =>
    intro hmax
    have hnot : joinDots (names.take (l + 1)) ∉ apps :=
      hmax (l + 1) (le_refl _) (by omega)
    simp only [fixtureDirGo, if_neg hnot]
    exact ih (fun j hj h1 => hmax j (by omega) h1)

theorem flushSep_append {t u : List Event} (ht : flushSep t) (hu : flushSep u) :
    flushSep (t ++ u) := by
  intro i n ex p h
  by_cases hi : i < t.length
  · rw [List.getElem?_append_left hi] at h
    have h2 := ht i n ex p h
    obtain ⟨hlen, _⟩ := List.getElem?_eq_some.mp h2
    rw [List.getElem?_append_left hlen]
    exact h2
  · push_neg at hi
    rw [List.getElem?_append_right hi] at h
    have h2 := hu (i - t.length) n ex p h
    have heq : i + 1 - t.length = (i - t.length) + 1 := by omega
    rw [List.getElem?_append_right (by omega), heq]
    exact h2

theorem flushSep_nil : flushSep [] := by
  intro i n ex p h
  simp at h

theorem flushSep_provision : flushSep [Event.provision] := by
  intro i n ex p h
  cases i with
  | zero => simp at h
  | succ j => simp at h

theorem flushSep_errLine (d : String) : flushSep [Event.errLine d] := by
  intro i n ex p h
  cases i with
  | zero => simp at h
  | succ j => simp at h

theorem flushSep_pair (n : String) (ex : List String) (p : String) :
    flushSep [Event.compileEv n ex p, Event.flush] := by
  intro i n2 ex2 p2 h
  cases i with
  | zero => simp
  | succ j =>
    cases j with
    | zero => simp at h
    | succ j2 => simp at h

theorem flushSep_ensureDbBuilt (st : RunState) (h : flushSep st.trace) :
    flushSep (ensureDbBuilt st).trace := by
  unfold ensureDbBuilt
  split
  · exact h
  · exact flushSep_append h flushSep_provision

theorem compile_fixture_shape {c : PyClass} {b : String} {ev : Event}
    (h : compile_fixture c b = .ok ev) :
    ∃ fn, get_filename c = .ok fn ∧
      ev = Event.compileEv c.name (dumpdataExcludes c) (b ++ "/" ++ fn) := by
  unfold compile_fixture at h
  cases hf : get_filename c with
  | error e => rw [hf] at h; simp at h
  | ok fn =>
    rw [hf] at h
    simp only [Except.ok.injEq] at h
    exact ⟨fn, rfl, h.symm⟩

theorem runCompilers_flushSep (env : PyEnv) (dotted : String) :
    ∀ (cs : List PyAttr) (st : RunState), flushSep st.trace →
    flushSep ((runCompilers env dotted st cs).1.trace) := by
  intro cs
  induction cs with
  | nil => intro st h; exact h
  | cons a rest ih =>
    intro st h
    have h1 : flushSep (ensureDbBuilt st).trace := flushSep_ensureDbBuilt st h
    cases a with
    | other => exact h1
    | pyClass c =>
      simp only [runCompilers]
      split
      · exact h1
      · split
        · exact flushSep_append h1 (flushSep_errLine dotted)
        · split
          · exact h1
          · next ev heq =>
            obtain ⟨fn, _, hev⟩ := compile_fixture_shape heq
            subst hev
            exact ih _ (flushSep_append h1 (flushSep_pair _ _ _))

theorem processOne_flushSep (env : PyEnv) (el : Bool) (st : RunState) (p : String)
    (h : flushSep st.trace) :
    flushSep ((processOne env el st p).1.trace) := by
  unfold processOne
  split
  · exact h
  · exact h
  · split
    · exact runCompilers_flushSep env p _ st h
    · split
      · exact h
      · exact runCompilers_flushSep env p _ st h

theorem processApps_flushSep (env : PyEnv) (el : Bool) :
    ∀ (paths : List String) (st : RunState), flushSep st.trace →
    flushSep ((processApps env el paths st).1.trace) := by
  intro paths
  induction paths with
  | nil => intro st h; exact h
  | cons p ps ih =>
    intro st h
    simp only [processApps]
    cases hp : processOne env el st p with
    | mk st1 oe =>
      have h1 : flushSep st1.trace := by
        have := processOne_flushSep env el st p h
        rw [hp] at this
        exact this
      cases oe with
      | none => exact ih st1 h1
      | some e => exact h1

theorem flushSep_between {t : List Event} (ht : flushSep t) {i j : Nat}
    {n1 n2 : String} {ex1 ex2 : List String} {p1 p2 : String}
    (hij : i < j)
    (hi : t[i]? = some (Event.compileEv n1 ex1 p1))
    (hj : t[j]? = some (Event.compileEv n2 ex2 p2)) :
    ∃ k, i < k ∧ k < j ∧ t[k]? = some Event.flush := by
  refine ⟨i + 1, by omega, ?_, ht i n1 ex1 p1 hi⟩
  rcases Nat.lt_or_ge (i + 1) j with h | h
  · exact h
  · have : i + 1 = j := by omega
    subst this
    rw [ht i n1 ex1 p1 hi] at hj
    simp at hj

theorem compilerAt_eq_some {env : PyEnv} {m nm : String} {a : PyAttr} :
    compilerAt env m nm = some a ↔
      pyGetattr env m nm = some a ∧ keepAttr a = true := by
  unfold compilerAt
  cases hg : pyGetattr env m nm with
  | none => simp
  | some b =>
    show (if keepAttr b = true then some b else none) = some a ↔ _
    by_cases hk : keepAttr b = true
    · rw [if_pos hk]
      constructor
      · intro h
        obtain rfl := Option.some.inj h
        exact ⟨rfl, hk⟩
      · intro h
        obtain rfl := Option.some.inj h.1
        rfl
    · rw [if_neg hk]
      constructor
      · intro h; simp at h
      · intro h
        obtain rfl := Option.some.inj h.1
        exact absurd h.2 hk

/- ------------------------------------------------------------------ -/
/- Concrete test vectors.                                              -/
/- ------------------------------------------------------------------ -/

/-- A compiler class declared in a module that does not live under any
installed application. -/
def cOrphan : PyClass :=
  { name := "BadFixtureCompiler", mod := "orphan.tests.fixturecompilers",
    isBase := false, subOfBase := true, filename := some ("bad.json"),
    fmt := none, declaredExcludes := none }

/-- A well-placed compiler class under the installed app alpha. -/
def cGoodC1 : PyClass :=
  { name := "GoodFixtureCompiler", mod := "alpha.tests.fixturecompilers",
    isBase := false, subOfBase := true, filename := some ("good.json"),
    fmt := none, declaredExcludes := none }

/-- Environment for the directory-failure scenario: the module bad holds the
orphaned compiler, and the installed app alpha holds a healthy one. -/
def envC1 : PyEnv :=
  { importable := fun s =>
      s == "bad" || s == "alpha" || s == "alpha.tests.fixturecompilers",
    moduleAttrs := fun s =>
      if s = "bad" then [("Bad", PyAttr.pyClass cOrphan)]
      else if s = "alpha.tests.fixturecompilers" then
        [("Good", PyAttr.pyClass cGoodC1)]
      else [],
    installed_apps := ["alpha"] }

/-- A compiler class that declares its own dumpdata_excludes list. -/
def cAcme : PyClass :=
  { name := "AcmeFixtureCompiler", mod := "alpha.tests.fixturecompilers",
    isBase := false, subOfBase := true, filename := some ("acme.json"),
    fmt := none, declaredExcludes := some ["acme_only"] }

/-- A compiler subclass bound in module m but declared in another module. -/
def cImp : PyClass :=
  { name := "ImportedCompiler", mod := "elsewhere.factories",
    isBase := false, subOfBase := true, filename := none,
    fmt := none, declaredExcludes := none }

def envC3 : PyEnv :=
  { importable := fun _ => false,
    moduleAttrs := fun s =>
      if s = "m" then [("ImportedCompiler", PyAttr.pyClass cImp)] else [],
    installed_apps := [] }

/- ------------------------------------------------------------------ -/
/- Claim theorems.                                                     -/
/- ------------------------------------------------------------------ -/

/-- Claim C1 (code bug).  The spec says a fixture-directory determination
failure is reported on stderr and skips only the remaining compilers of the
same identifier, continuing with the next identifier.  The source indeed
contains exactly that handler (stderr write plus break, command lines
146-150), but the handler guards on a falsy return value while
get_fixture_dir never returns a falsy value: it raises ValueError
(fixturecompilers.py line 38).  So on the failing input below — identifier
bad whose compiler lives in no installed app, followed by the healthy
identifier alpha — the run aborts wholesale with the ValueError: no stderr
line is recorded, the tally stays zero, and the compiler of alpha is never
executed, contradicting the documented continue-with-next-identifier
behaviour. -/
theorem c1_fixture_dir_failure_aborts_run :
    processApps envC1 true ["bad", "alpha"] initState =
      ({ dbBuilt := true, count := 0, trace := [Event.provision] },
        some (PyErr.valueError ("orphan.tests.fixturecompilers"))) ∧
    get_fixture_dir envC1.installed_apps cGoodC1 = .ok ("alpha/fixtures") := by
  constructor
  · rfl
  · rfl

/-- Claim C2, counterexample.  The claim says the exclusion list passed to
dumpdata is the built-in list unioned with the declared list of the
descriptor.  For the concrete descriptor cAcme, which declares its own
exclusion list, the list actually passed is exactly the declared list: the
built-in exclusion of authentication permissions is a member of the built-in
list but not of the list passed, so no union takes place. -/
theorem c2_counterexample :
    compile_fixture cAcme ("alpha/fixtures") =
      .ok (Event.compileEv ("AcmeFixtureCompiler") (["acme_only"])
        ("alpha/fixtures/acme.json")) ∧
    ("auth.permission" ∈ dumpdata_excludes_base) ∧
    ("auth.permission" ∉ dumpdataExcludes cAcme) := by
  refine ⟨rfl, by decide, by decide⟩

/-- Claim C2, amended.  The exclusion list passed to the serialization step
equals the dumpdata_excludes attribute of the descriptor: the list the
descriptor itself declares when it declares one (replacing, not uniting
with, the built-ins), and the fixed built-in list otherwise. -/
theorem c2_excludes_passed_verbatim (c : PyClass) (d : String) (ev : Event)
    (h : compile_fixture c d = .ok ev) :
    ∃ fn, get_filename c = .ok fn ∧
      ev = Event.compileEv c.name (c.declaredExcludes.getD dumpdata_excludes_base)
        (d ++ "/" ++ fn) :=
  compile_fixture_shape h

theorem c2_excludes_passed_verbatim_witness :
    ∃ fn, get_filename cAcme = .ok fn ∧
      Event.compileEv ("AcmeFixtureCompiler") (["acme_only"])
          ("alpha/fixtures/acme.json") =
        Event.compileEv cAcme.name
          (cAcme.declaredExcludes.getD dumpdata_excludes_base)
          ("alpha/fixtures" ++ "/" ++ fn) :=
  c2_excludes_passed_verbatim cAcme ("alpha/fixtures")
    (Event.compileEv ("AcmeFixtureCompiler") (["acme_only"])
      ("alpha/fixtures/acme.json")) (by rfl)

/-- Claim C3, counterexample.  The claim says discovery returns only classes
defined directly in the scanned module.  The source filter (command lines
53-57) checks only is-a-class, not-the-base, and subclass-of-base; it never
consults the declaring module.  In envC3 the module m binds a compiler class
whose declaring module is a different module, and discovery returns it
anyway. -/
theorem c3_counterexample :
    getFixtureCompilers envC3 ("m") = [PyAttr.pyClass cImp] ∧
    cImp.mod ≠ "m" := by
  refine ⟨rfl, by decide⟩

/-- Claim C3, amended.  Discovery returns exactly the module attributes that
are classes, are not the base compiler type itself, and are subtypes of the
base compiler type — regardless of which module defines them. -/
theorem c3_discovery_membership (env : PyEnv) (m : String) (a : PyAttr) :
    a ∈ getFixtureCompilers env m ↔
      ∃ nm, pyGetattr env m nm = some a ∧ keepAttr a = true := by
  unfold getFixtureCompilers
  rw [List.mem_filterMap]
  constructor
  · rintro ⟨nm, _, hc⟩
    exact ⟨nm, compilerAt_eq_some.mp hc⟩
  · rintro ⟨nm, hg, hk⟩
    refine ⟨nm, ?_, compilerAt_eq_some.mpr ⟨hg, hk⟩⟩
    unfold dirList
    exact (List.perm_insertionSort StrLe _).mem_iff.mpr (lookup_some_mem_keys hg)

/-- Claim C4.  Resolver import-prefix behaviour, in the two cases the claim
distinguishes.  First conjunct: when a non-final prefix of the dotted
identifier fails to import (every shorter prefix having imported), the
ImportError is re-raised — a hard failure of resolution.  Second conjunct:
when every proper prefix imports and only the full path (the final segment)
fails, resolution returns the module imported so far paired with the
attribute of that module named by the final segment. -/
theorem c4_resolver_prefix_vs_final (env : PyEnv) (el : Bool) :
    (∀ (dotted : String) (r1 : List String) (s : String) (r2 : List String),
      splitDots dotted = r1 ++ s :: r2 → r2 ≠ [] →
      (∀ i, i < r1.length → env.importable (joinDots (r1.take (i + 1))) = true) →
      env.importable (joinDots (r1 ++ [s])) = false →
      getCompilerModule env dotted el =
        .error (.importError (joinDots (r1 ++ [s])))) ∧
    (∀ (dotted : String) (r1 : List String) (s : String) (a : PyAttr),
      splitDots dotted = r1 ++ [s] → r1 ≠ [] →
      (∀ i, i < r1.length → env.importable (joinDots (r1.take (i + 1))) = true) →
      env.importable (joinDots (r1 ++ [s])) = false →
      pyGetattr env (joinDots r1) s = some a →
      getCompilerModule env dotted el = .ok (some (joinDots r1), some a)) := by
  constructor
  · intro dotted r1 s r2 hsplit hr2 himp hfail
    unfold getCompilerModule
    rw [hsplit]
    have hloop := importLoop_raise env ((r1 ++ s :: r2).getLastD ("")) r1 [] none s r2
      hr2 (by simpa using himp) (by simpa using hfail)
    simp only [List.nil_append] at hloop
    rw [hloop]
  · intro dotted r1 s a hsplit hr1 himp hfail hget
    unfold getCompilerModule
    rw [hsplit]
    have hlast : (r1 ++ [s]).getLastD ("") = s := List.getLastD_concat _ _ _
    rw [hlast]
    have hadv := importLoop_advance env s r1 [] none [s] hr1 (by simpa using himp)
    simp only [List.nil_append] at hadv
    rw [hadv]
    simp only [importLoop, hfail, Bool.false_eq_true, if_false, if_pos rfl, hget]
    simp

/-- Claim C5.  For an identifier that imports cleanly and names an installed
application, the Resolver probes the conventional submodule location
app.tests.fixturecompilers.  When that probe fails to import: in an implicit
sweep the Resolver returns the nothing-to-do pair (None, None); for an
explicitly requested identifier it re-raises the ImportError.  Moreover the
pair (None, None) is never returned in explicit mode, for any environment
and identifier. -/
theorem c5_conventional_probe (env : PyEnv) (dotted : String)
    (himp : ∀ i, i < (splitDots dotted).length →
      env.importable (joinDots ((splitDots dotted).take (i + 1))) = true)
    (happ : dotted ∈ env.installed_apps)
    (hsub : env.importable (dotted ++ ".tests.fixturecompilers") = false) :
    getCompilerModule env dotted false = .ok (none, none) ∧
    getCompilerModule env dotted true =
      .error (.importError (dotted ++ ".tests.fixturecompilers")) ∧
    (∀ (env2 : PyEnv) (d2 : String) (r : Option String × Option PyAttr),
      getCompilerModule env2 d2 true = .ok r → r ≠ (none, none)) := by
  have hadv := importLoop_advance env ((splitDots dotted).getLastD (""))
    (splitDots dotted) [] none [] (splitDots_ne_nil dotted) (by simpa using himp)
  simp only [List.nil_append, List.append_nil] at hadv
  refine ⟨?_, ?_, ?_⟩
  · unfold getCompilerModule
    rw [hadv]
    simp only [importLoop, if_pos happ, hsub, Bool.false_eq_true, if_false]
  · unfold getCompilerModule
    rw [hadv]
    simp only [importLoop, if_pos happ, hsub, Bool.false_eq_true, if_false, if_pos rfl]
    simp
  · intro env2 d2 r h hr
    subst hr
    unfold getCompilerModule at h
    cases hloop : importLoop env2 ((splitDots d2).getLastD ("")) [] none (splitDots d2) with
    | error e => rw [hloop] at h; exact absurd h (by simp)
    | ok t =>
      obtain ⟨mm, e, b⟩ := t
      rw [hloop] at h
      cases b with
      | true =>
        simp only [Except.ok.injEq, Prod.mk.injEq] at h
        obtain ⟨⟨m2, hm2⟩, _⟩ :=
          importLoop_break_shape env2 _ (splitDots d2) [] none mm e hloop
        rw [h.1] at hm2
        simp at hm2
      | false =>
        by_cases hin : d2 ∈ env2.installed_apps
        · by_cases hsub2 : env2.importable (d2 ++ ".tests.fixturecompilers") = true
          · simp [hin, hsub2] at h
          · simp [hin, hsub2] at h
        · simp [hin] at h
          obtain ⟨_, m2, hm2⟩ :=
            importLoop_complete_shape env2 _ (splitDots d2) [] none mm e
              (splitDots_ne_nil d2) hloop
          rw [h.1] at hm2
          simp at hm2

/-- Claim C6.  In an explicit run, a resolution failure on an identifier
propagates fatally: process_apps returns the error at once and the run state
— in particular whether the test database has been provisioned and the event
trace — is exactly as it was before that identifier was taken up, so no
test-database provisioning is triggered on behalf of the failing
identifier. -/
theorem c6_explicit_resolution_failure (env : PyEnv) (st : RunState) (p : String)
    (ps : List String) (e : PyErr)
    (h : getCompilerModule env p true = .error e) :
    processApps env true (p :: ps) st = (st, some e) := by
  simp only [processApps, processOne, h]

def envC6 : PyEnv :=
  { importable := fun _ => false, moduleAttrs := fun _ => [],
    installed_apps := [] }

theorem c6_explicit_resolution_failure_witness :
    processApps envC6 true ["a.b"] initState =
      (initState, some (PyErr.importError ("a"))) :=
  c6_explicit_resolution_failure envC6 initState ("a.b") []
    (PyErr.importError ("a")) (by rfl)

def envC4a : PyEnv :=
  { importable := fun _ => false, moduleAttrs := fun _ => [],
    installed_apps := [] }

def envC4b : PyEnv :=
  { importable := fun s => s == "a",
    moduleAttrs := fun s => if s = "a" then [("b", PyAttr.other)] else [],
    installed_apps := [] }

theorem c4_resolver_prefix_vs_final_witness :
    getCompilerModule envC4a ("a.b.c") true = .error (.importError ("a")) ∧
    getCompilerModule envC4b ("a.b") true = .ok (some ("a"), some PyAttr.other) :=
  ⟨(c4_resolver_prefix_vs_final envC4a true).1 ("a.b.c") [] ("a") ["b", "c"]
      (by rfl) (by decide) (by decide) (by rfl),
    (c4_resolver_prefix_vs_final envC4b true).2 ("a.b") ["a"] ("b") PyAttr.other
      (by rfl) (by decide) (by decide) (by rfl) (by rfl)⟩

def envC5 : PyEnv :=
  { importable := fun s => s == "shop", moduleAttrs := fun _ => [],
    installed_apps := ["shop"] }

theorem c5_conventional_probe_witness :
    getCompilerModule envC5 ("shop") false = .ok (none, none) ∧
    getCompilerModule envC5 ("shop") true =
      .error (.importError ("shop.tests.fixturecompilers")) :=
  ⟨(c5_conventional_probe envC5 ("shop") (by decide) (by decide) (by rfl)).1,
    (c5_conventional_probe envC5 ("shop") (by decide) (by decide) (by rfl)).2.1⟩

/-- Claim C7.  Between any two compile events of one invocation — whatever
the identifiers, the environment and the mode — there is a flush event
strictly in between: the flush is unconditional after every compiler, so no
serialized snapshot can contain rows inserted by an earlier compiler of the
same invocation. -/
theorem c7_flush_between_compilers (env : PyEnv) (el : Bool) (paths : List String)
    (i j : Nat) (n1 n2 : String) (ex1 ex2 : List String) (p1 p2 : String)
    (hij : i < j)
    (hi : ((processApps env el paths initState).1.trace)[i]? =
      some (Event.compileEv n1 ex1 p1))
    (hj : ((processApps env el paths initState).1.trace)[j]? =
      some (Event.compileEv n2 ex2 p2)) :
    ∃ k, i < k ∧ k < j ∧
      ((processApps env el paths initState).1.trace)[k]? = some Event.flush :=
  flushSep_between (processApps_flushSep env el paths initState flushSep_nil)
    hij hi hj

def cAlphaA : PyClass :=
  { name := "A", mod := "alpha.t", isBase := false, subOfBase := true,
    filename := some ("a.json"), fmt := none, declaredExcludes := none }

def cAlphaB : PyClass :=
  { name := "B", mod := "alpha.t", isBase := false, subOfBase := true,
    filename := some ("b.json"), fmt := none, declaredExcludes := none }

def envC7 : PyEnv :=
  { importable := fun s => s == "m",
    moduleAttrs := fun s =>
      if s = "m" then
        [("B", PyAttr.pyClass cAlphaB), ("A", PyAttr.pyClass cAlphaA)]
      else [],
    installed_apps := ["alpha"] }

theorem c7_flush_between_compilers_witness :
    ∃ k, 1 < k ∧ k < 3 ∧
      ((processApps envC7 false ["m"] initState).1.trace)[k]? =
        some Event.flush :=
  c7_flush_between_compilers envC7 false ["m"] 1 3 ("A") ("B")
    dumpdata_excludes_base dumpdata_excludes_base
    ("alpha/fixtures/a.json") ("alpha/fixtures/b.json")
    (by omega) (by rfl) (by rfl)

def cWidget : PyClass :=
  { name := "WidgetCatalogFixtureCompiler", mod := "shop.tests.fixturecompilers",
    isBase := false, subOfBase := true, filename := none, fmt := none,
    declaredExcludes := none }

def cVerbatim : PyClass :=
  { name := "X", mod := "m", isBase := false, subOfBase := true,
    filename := some ("custom/path.xml"), fmt := some ("xml"),
    declaredExcludes := none }

def cNameless : PyClass :=
  { name := "", mod := "m", isBase := false, subOfBase := true,
    filename := none, fmt := none, declaredExcludes := none }

/-- Claim C8.  Output filename: a truthy declared filename is used verbatim;
with no declared filename the name is derived from the class name (CamelCase
to snake case, trailing fixture-compiler suffix stripped) and placed under
the compiled directory with the format of the descriptor as extension; an
empty derived name is a ValueError; and concretely the class
WidgetCatalogFixtureCompiler with default format yields
compiled/widget_catalog.json. -/
theorem c8_filename_derivation :
    (∀ (c : PyClass) (f : String), c.filename = some f → f ≠ "" →
      get_filename c = .ok f) ∧
    (∀ c : PyClass, c.filename = none → derivedName c ≠ "" →
      get_filename c = .ok ("compiled/" ++ derivedName c ++ "." ++ effFormat c)) ∧
    (∀ c : PyClass, c.filename = none → derivedName c = "" →
      get_filename c = .error (.valueError c.name)) ∧
    get_filename cWidget = .ok ("compiled/widget_catalog.json") := by
  refine ⟨?_, ?_, ?_, by rfl⟩
  · intro c f hcf hne
    simp only [get_filename, hcf]
    rw [if_neg hne]
  · intro c hc hne
    simp only [get_filename, hc]
    rw [if_neg hne]
  · intro c hc hd
    simp only [get_filename, hc, hd, if_pos]

theorem c8_filename_derivation_witness :
    get_filename cVerbatim = .ok ("custom/path.xml") ∧
    get_filename cNameless = .error (.valueError ("")) :=
  ⟨c8_filename_derivation.1 cVerbatim ("custom/path.xml") rfl (by decide),
    c8_filename_derivation.2.2.1 cNameless rfl (by rfl)⟩

/-- Claim C9.  Fixture directory derivation: candidate dotted prefixes of the
declaring module path are walked longest first; if K is the length of the
longest prefix that names an installed application then the directory is
that prefix joined with the fixtures component; if no prefix names an
installed application the derivation fails with a ValueError. -/
theorem c9_fixture_dir_derivation (apps : List String) (c : PyClass) (K : Nat)
    (hK1 : 1 ≤ K) (hKn : K ≤ (splitDots c.mod).length)
    (hmem : joinDots ((splitDots c.mod).take K) ∈ apps)
    (hmax : ∀ j, j ≤ (splitDots c.mod).length → K < j →
      joinDots ((splitDots c.mod).take j) ∉ apps) :
    get_fixture_dir apps c =
      .ok (joinSlash ((splitDots c.mod).take K ++ [("fixtures" : String)])) ∧
    (∀ (apps2 : List String) (c2 : PyClass),
      (∀ j, j ≤ (splitDots c2.mod).length → 1 ≤ j →
        joinDots ((splitDots c2.mod).take j) ∉ apps2) →
      get_fixture_dir apps2 c2 = .error (.valueError c2.mod)) := by
  constructor
  · unfold get_fixture_dir
    rw [fixtureDirGo_found apps (splitDots c.mod) K hK1 hmem
      (splitDots c.mod).length hKn hmax]
  · intro apps2 c2 hnone
    unfold get_fixture_dir
    rw [fixtureDirGo_none apps2 (splitDots c2.mod) (splitDots c2.mod).length hnone]

def cShop : PyClass :=
  { name := "ShopFixtureCompiler", mod := "shop.tests.fixturecompilers",
    isBase := false, subOfBase := true, filename := none, fmt := none,
    declaredExcludes := none }

theorem c9_fixture_dir_derivation_witness :
    get_fixture_dir ["shop"] cShop = .ok ("shop/fixtures") :=
  (c9_fixture_dir_derivation ["shop"] cShop 1 (by decide) (by decide)
    (by decide) (by decide)).1

/-- Claim C10.  Discovery is deterministic and alphabetical: dir(module) is
the sorted list of attribute names, the discovered compilers are read off
that sorted enumeration, and two environments whose attribute bindings for
the module are permutations of one another (with distinct names) yield the
same discovery result. -/
theorem c10_discovery_sorted_deterministic (env1 env2 : PyEnv) (m : String)
    (hperm : (env1.moduleAttrs m).Perm (env2.moduleAttrs m))
    (hnd : ((env1.moduleAttrs m).map Prod.fst).Nodup) :
    List.Sorted StrLe (dirList env1 m) ∧
    getFixtureCompilers env1 m = (dirList env1 m).filterMap (compilerAt env1 m) ∧
    getFixtureCompilers env1 m = getFixtureCompilers env2 m := by
  refine ⟨List.sorted_insertionSort StrLe _, rfl, ?_⟩
  have hkeys : ((env1.moduleAttrs m).map Prod.fst).Perm
      ((env2.moduleAttrs m).map Prod.fst) := hperm.map _
  have hdir : dirList env1 m = dirList env2 m := by
    unfold dirList
    refine List.eq_of_perm_of_sorted ?_
      (List.sorted_insertionSort _ _) (List.sorted_insertionSort _ _)
    exact (List.perm_insertionSort _ _).trans
      (hkeys.trans (List.perm_insertionSort _ _).symm)
  have hfun : compilerAt env1 m = compilerAt env2 m := by
    funext nm
    unfold compilerAt pyGetattr
    rw [lookup_eq_of_perm hperm hnd nm]
  unfold getFixtureCompilers
  rw [hdir, hfun]

def cT1 : PyClass :=
  { name := "AlphaFixtureCompiler", mod := "alpha.t", isBase := false,
    subOfBase := true, filename := none, fmt := none, declaredExcludes := none }

def cT2 : PyClass :=
  { name := "BetaFixtureCompiler", mod := "alpha.t", isBase := false,
    subOfBase := true, filename := none, fmt := none, declaredExcludes := none }

def envT1 : PyEnv :=
  { importable := fun _ => false,
    moduleAttrs := fun s =>
      if s = "m" then [("B", PyAttr.pyClass cT2), ("A", PyAttr.pyClass cT1)]
      else [],
    installed_apps := [] }

def envT2 : PyEnv :=
  { importable := fun _ => false,
    moduleAttrs := fun s =>
      if s = "m" then [("A", PyAttr.pyClass cT1), ("B", PyAttr.pyClass cT2)]
      else [],
    installed_apps := [] }

theorem c10_discovery_sorted_deterministic_witness :
    getFixtureCompilers envT1 ("m") = getFixtureCompilers envT2 ("m") ∧
    List.Sorted StrLe (dirList envT1 ("m")) :=
  ⟨(c10_discovery_sorted_deterministic envT1 envT2 ("m")
      (by decide) (by decide)).2.2,
    (c10_discovery_sorted_deterministic envT1 envT2 ("m")
      (by decide) (by decide)).1⟩

end CompileFixtures
